import Mathlib

/-!
Verification of the SVN webhook change-extraction pipeline
(`biz/subversion/create_webhook.py` and `biz/subversion/webhook_handler.py`).

Python strings are modelled by Lean `String`, but every Python string
operation used by the code (`lower`, `in`, `split`, `strip`, `int(...)`,
`startswith`, ...) is implemented here by structural recursion over the
underlying character list, so that all definitions evaluate by kernel
reduction.  External effects (the `svn` subprocess, `re`/`urlparse`
library calls, the system clock) are passed in as explicit oracle
parameters; `datetime` values are modelled by their ISO source strings.
Python `None` becomes `Option.none`; an exception caught by an enclosing
`try` block becomes an overall `Option.none` result.
-/

namespace SvnWebhook

/-! ## Python string primitives (structural `List Char` engines) -/

/-- Is one character list a contiguous infix of another? -/
def infixOfL : List Char → List Char → Bool
  | needle, [] => needle.isEmpty
  | needle, c :: rest => needle.isPrefixOf (c :: rest) || infixOfL needle rest

/-- Python `needle in hay` substring test. -/
def pyIn (needle hay : String) : Bool :=
  infixOfL needle.toList hay.toList

/-- Python `s.lower()` (ASCII case folding, which covers every string the
code lowercases). -/
def pyLower (s : String) : String :=
  (s.toList.map Char.toLower).asString

/-- Python `s.startswith(p)`. -/
def pyStartsWith (s p : String) : Bool :=
  p.toList.isPrefixOf s.toList

/-- Python `s.endswith(p)`. -/
def pyEndsWith (s p : String) : Bool :=
  p.toList.reverse.isPrefixOf s.toList.reverse

/-- Split a character list on a separator character (Python
`s.split(sep)` semantics: always at least one piece, empty pieces kept). -/
def splitOnCharL (sep : Char) : List Char → List (List Char)
  | [] => [[]]
  | c :: rest =>
      let r := splitOnCharL sep rest
      if c = sep then [] :: r
      else
        match r with
        | [] => [[c]]
        | h :: t => (c :: h) :: t

/-- Python `s.split(sep)` for a one-character separator. -/
def pySplitOn (sep : Char) (s : String) : List String :=
  (splitOnCharL sep s.toList).map List.asString

/-- Join character lists with a separator character. -/
def joinWith (sep : Char) : List (List Char) → List Char
  | [] => []
  | [x] => x
  | x :: y :: t => x ++ sep :: joinWith sep (y :: t)

/-- Python `sep.join(parts)` for a one-character separator. -/
def pyJoin (sep : Char) (parts : List String) : String :=
  (joinWith sep (parts.map String.toList)).asString

/-- Python `s.replace(old, new)` for one-character arguments. -/
def pyReplaceChar (old new : Char) (s : String) : String :=
  (s.toList.map (fun c => if c = old then new else c)).asString

/-- Strip characters satisfying `p` from both ends of a list. -/
def stripL (p : Char → Bool) (l : List Char) : List Char :=
  ((l.dropWhile p).reverse.dropWhile p).reverse

/-- Python `s.strip()` (whitespace strip). -/
def pyStrip (s : String) : String :=
  (stripL Char.isWhitespace s.toList).asString

/-- Python `s.split()` with no argument: split on whitespace runs,
discarding empty tokens. -/
def splitWSL : List Char → List (List Char)
  | [] => []
  | c :: rest =>
      if c.isWhitespace then splitWSL rest
      else
        match splitWSL rest with
        | [] => [[c]]
        | h :: t =>
            match rest with
            | [] => [[c]]
            | r :: _ => if r.isWhitespace then [c] :: h :: t else (c :: h) :: t

/-- Python `s.split()` (whitespace split, no empty tokens). -/
def pySplitWS (s : String) : List String :=
  (splitWSL s.toList).map List.asString

/-- Decimal digit sequence to a natural number (`none` if empty or a
non-digit occurs). -/
def digitsToNat? : List Char → Option Nat → Option Nat
  | [], acc => acc
  | c :: rest, acc =>
      if '0' ≤ c ∧ c ≤ '9' then
        digitsToNat? rest (some ((acc.getD 0) * 10 + (c.toNat - 48)))
      else none

/-- Python `int(s)` on a plain optionally-signed decimal numeral (the only
shape that reaches it in the verified paths); other inputs raise, i.e.
give `none`. -/
def pyInt (s : String) : Option Int :=
  match s.toList with
  | '-' :: rest => (digitsToNat? rest none).map (fun n => -(n : Int))
  | '+' :: rest => (digitsToNat? rest none).map (fun n => (n : Int))
  | l => (digitsToNat? l none).map (fun n => (n : Int))

/-- Python `str(v)` for an integer. -/
def pyStrOfInt (v : Int) : String :=
  toString v

/-- Python truthiness of an `Optional[str]`: `None` and `""` are falsy. -/
def pyTruthy : Option String → Bool
  | none => false
  | some s => !(s == "")

end SvnWebhook

namespace SvnWebhook

/-! ## Data model (`create_webhook.py`) -/

/-- `SVNFileAction` enum: the four SVN file action codes. -/
inductive SVNFileAction where
  | added
  | deleted
  | modified
  | replaced
deriving DecidableEq, Repr

/-- `SVNFileAction(value)` enum construction by value; `ValueError` is `none`. -/
def SVNFileAction.ofValue : String → Option SVNFileAction
  | "A" => some .added
  | "D" => some .deleted
  | "M" => some .modified
  | "R" => some .replaced
  | _ => none

/-- `.value` of the enum member. -/
def SVNFileAction.value : SVNFileAction → String
  | .added => "A"
  | .deleted => "D"
  | .modified => "M"
  | .replaced => "R"

/-- `SVNFileChange` pydantic model (display-only helpers omitted). -/
structure SVNFileChange where
  path : String
  action : SVNFileAction
  diff_content : Option String := none
  old_revision : Option String := none
  new_revision : Option String := none
  lines_added : Nat := 0
  lines_deleted : Nat := 0
  is_binary : Bool := false
deriving DecidableEq, Repr

/-- `SVNRepoInfo` pydantic model. -/
structure SVNRepoInfo where
  uuid : String
  url : String
  relative_url : String
  root_url : String
  revision : String
deriving DecidableEq, Repr

/-! ## Diff formatter: binary detection (`DiffFormatter.is_binary_diff`) -/

/-- The `binary_indicators` list from `is_binary_diff`.  In the Python
source the two string literals are juxtaposed with no separating comma, so
implicit literal concatenation makes this a one-element list. -/
def binary_indicators : List String :=
  ["Cannot display: file marked as a binary type." ++
   "svn:mime-type = application/octet-stream"]

/-- `DiffFormatter.is_binary_diff`: empty input is falsy and yields
`False`; otherwise checks whether any indicator occurs (case-insensitively)
in the diff text. -/
def is_binary_diff (diff_content : String) : Bool :=
  if diff_content == "" then false
  else
    let content_lower := pyLower diff_content
    binary_indicators.any (fun ind => pyIn (pyLower ind) content_lower)

/-! ## Diff line statistics (`DiffFormatter.extract_diff_stats`) -/

/-- One scanned line of `extract_diff_stats`. -/
def diffStatOfLine (line : String) : Nat × Nat :=
  if pyStartsWith line "+" && !pyStartsWith line "+++" then (1, 0)
  else if pyStartsWith line "-" && !pyStartsWith line "---" then (0, 1)
  else (0, 0)

/-- `DiffFormatter.extract_diff_stats`: count added/deleted lines. -/
def extract_diff_stats (diff_content : String) : Nat × Nat :=
  if diff_content == "" then (0, 0)
  else
    (pySplitOn '\n' diff_content).foldl
      (fun acc line =>
        let s := diffStatOfLine line
        (acc.1 + s.1, acc.2 + s.2))
      (0, 0)

/-! ## Diff normalization (`DiffFormatter.format_to_github_style`) -/

/-- The line loop of `format_to_github_style` (lines 176-215), over the
already-split line list, carrying the `in_diff_content` flag.  `m1` and
`m2` are oracles for the two library regex searches
(`re.search` of the `---`/`+++` header patterns, returning the captured
path group) used only when no `file_path` argument was supplied. -/
def format_go (m1 m2 : String → Option String) (file_path : Option String) :
    Bool → List String → List String
  | _, [] => []
  | ic, line :: rest =>
      if pyStartsWith line "Index:" then format_go m1 m2 file_path ic rest
      else if pyStartsWith line "=====" then format_go m1 m2 file_path ic rest
      else if pyStartsWith line "---" then
        (if pyTruthy file_path then "--- a/" ++ file_path.getD ""
         else match m1 line with
           | some path => "--- a/" ++ pyReplaceChar '\\' '/' path
           | none => line) :: format_go m1 m2 file_path true rest
      else if pyStartsWith line "+++" then
        (if pyTruthy file_path then "+++ b/" ++ file_path.getD ""
         else match m2 line with
           | some path => "+++ b/" ++ pyReplaceChar '\\' '/' path
           | none => line) :: format_go m1 m2 file_path ic rest
      else if ic then line :: format_go m1 m2 file_path ic rest
      else format_go m1 m2 file_path ic rest

/-- `format_go` specialized to a truthy `file_path` (the matcher oracles
are then unreachable); used to reason about the loop. -/
def format_go_pathed (p : String) : Bool → List String → List String
  | _, [] => []
  | ic, line :: rest =>
      if pyStartsWith line "Index:" then format_go_pathed p ic rest
      else if pyStartsWith line "=====" then format_go_pathed p ic rest
      else if pyStartsWith line "---" then
        ("--- a/" ++ p) :: format_go_pathed p true rest
      else if pyStartsWith line "+++" then
        ("+++ b/" ++ p) :: format_go_pathed p ic rest
      else if ic then line :: format_go_pathed p ic rest
      else format_go_pathed p ic rest

/-- `DiffFormatter.format_to_github_style` (lines 155-217): blank input
yields the empty string; otherwise the input is split on newlines, the
line loop runs with `in_diff_content` initially false, and the surviving
lines are re-joined with newlines. -/
def format_to_github_style (m1 m2 : String → Option String)
    (svn_diff : String) (file_path : Option String) : String :=
  if svn_diff = "" ∨ pyStrip svn_diff = "" then ""
  else pyJoin '\n' (format_go m1 m2 file_path false (pySplitOn '\n' svn_diff))

/-! ## Diff command construction (`SubversionWebhook.get_file_diff`) -/

/-- The `diff_cmd` list built in `get_file_diff` before it is handed to
`svn_command`: revision selection by Python truthiness of the two
optional revision strings. -/
def build_diff_cmd (file_path : String) (old_revision new_revision : Option String) :
    List String :=
  let diff_cmd := ["diff"]
  let diff_cmd :=
    if pyTruthy old_revision && pyTruthy new_revision then
      diff_cmd ++ ["-r", old_revision.getD "" ++ ":" ++ new_revision.getD ""]
    else if pyTruthy old_revision then
      diff_cmd ++ ["-r", old_revision.getD ""]
    else diff_cmd
  diff_cmd ++ [file_path]

/-- `SubversionWebhook._build_svn_command`: prepends the client binary name. -/
def build_svn_command (command : List String) : List String :=
  ["svn"] ++ command

/-! ## Per-file revision bounds in `get_commit_info` -/

/-- The per-file revision computation of `get_commit_info` (lines 775-777):
`old_revision = str(int(revision) - 1) if action != ADDED else None` and
`new_revision = revision if action != DELETED else None`.  The outer
`Option` is the enclosing `try`: `int(revision)` raising `ValueError`
aborts the whole call.  For `ADDED` the conditional expression short
circuits, so `int(revision)` is not evaluated. -/
def commit_file_revisions (revision : String) (action : SVNFileAction) :
    Option (Option String × Option String) :=
  let oldRev? : Option (Option String) :=
    if action ≠ SVNFileAction.added then
      (pyInt revision).map (fun v => some (pyStrOfInt (v - 1)))
    else some none
  match oldRev? with
  | none => none
  | some oldRev =>
      some (oldRev, if action ≠ SVNFileAction.deleted then some revision else none)

/-! ## Change discovery loops -/

/-- Return tuple of `get_file_diff`:
`(diff_content, lines_added, lines_deleted, is_binary)`.  The surrounding
code treats a failed diff as `(None, 0, 0, False)`; `get_file_diff` never
raises. -/
structure DiffResult where
  diff_content : Option String
  lines_added : Nat
  lines_deleted : Nat
  is_binary : Bool
deriving DecidableEq, Repr

/-- The status-line loop of `get_working_copy_changes` (discovery mode,
lines 613-648): each line of `svn diff --summarize` output is
`<action-code> <path>`; blank lines and lines with fewer than two
whitespace tokens are skipped, the path is the re-joined remainder,
unknown action codes are skipped, and surviving lines are turned into
`SVNFileChange` records with `old_revision` the repository revision and
`new_revision` the literal `"working copy"`.  The per-file
`get_file_diff` call is the oracle `diffForPath`. -/
def process_status_lines (diffForPath : String → DiffResult)
    (repo_revision : String) : List String → List SVNFileChange
  | [] => []
  | line :: rest =>
      if pyStrip line = "" then process_status_lines diffForPath repo_revision rest
      else
        match pySplitWS line with
        | [] => process_status_lines diffForPath repo_revision rest
        | [_] => process_status_lines diffForPath repo_revision rest
        | action_str :: p :: ps =>
            let file_path := pyJoin ' ' (p :: ps)
            match SVNFileAction.ofValue action_str with
            | none => process_status_lines diffForPath repo_revision rest
            | some action =>
                let r := diffForPath file_path
                { path := file_path, action := action, diff_content := r.diff_content,
                  old_revision := some repo_revision,
                  new_revision := some "working copy",
                  lines_added := r.lines_added, lines_deleted := r.lines_deleted,
                  is_binary := r.is_binary } ::
                  process_status_lines diffForPath repo_revision rest

/-- The `Result` pydantic model of a subprocess invocation
(`create_webhook.py` lines 384-404). -/
structure Result where
  returncode : Int
  stdout : String
  stderr : String
deriving DecidableEq, Repr

/-- `Result.success`: `returncode == 0`. -/
def Result.success (r : Result) : Bool :=
  r.returncode == 0

/-- `SubversionWebhook._process_single_file_change` (lines 661-724),
explicit-file-list mode: run `svn diff --summarize <path>` (the oracle
`svnSummarize`), give up (`None`) on command failure (the E155010 branch
only logs before the same `return None`), on empty summarize output, on a
malformed status line, or on an unknown action code (logged, never
fatal); otherwise fetch the file's diff and build the `SVNFileChange`
with `old_revision` the repository revision and `new_revision` the
`"working copy"` sentinel.  The first guard `if not stdout_lines` of
line 686 can never fire because `split` always returns at least one
piece; the `[] => none` arm mirrors it for totality. -/
def process_single_file_change (svnSummarize : String → Result)
    (diffForPath : String → DiffResult) (repo_revision : String)
    (file_path : String) : Option SVNFileChange :=
  let status_result := svnSummarize file_path
  if status_result.success = false then none
  else
    match pySplitOn '\n' (pyStrip status_result.stdout) with
    | [] => none
    | line :: _ =>
        if pyStrip line = "" then none
        else
          match pySplitWS line with
          | [] => none
          | [_] => none
          | action_str :: _ :: _ =>
              match SVNFileAction.ofValue action_str with
              | none => none
              | some action =>
                  let r := diffForPath file_path
                  some { path := file_path, action := action,
                         diff_content := r.diff_content,
                         old_revision := some repo_revision,
                         new_revision := some "working copy",
                         lines_added := r.lines_added,
                         lines_deleted := r.lines_deleted,
                         is_binary := r.is_binary }

/-- The explicit-file-list loop of `get_working_copy_changes`
(lines 593-603): each supplied path is handed to
`_process_single_file_change` and only truthy results (a model instance
is always truthy, so: non-`None` results) are appended. -/
def process_commit_files (svnSummarize : String → Result)
    (diffForPath : String → DiffResult) (repo_revision : String) :
    List String → List SVNFileChange
  | [] => []
  | fp :: rest =>
      match process_single_file_change svnSummarize diffForPath repo_revision fp with
      | none => process_commit_files svnSummarize diffForPath repo_revision rest
      | some fc => fc :: process_commit_files svnSummarize diffForPath repo_revision rest

/-- One `<path>` element of the verbose log XML: its `action` attribute and
its text content (`None` when absent). -/
structure LogPath where
  action : String
  text : Option String
deriving DecidableEq, Repr

/-- The changed-path loop of `get_commit_info` (lines 763-799).  A path
with falsy text is skipped; an unknown action code is skipped; otherwise
the per-file revisions are computed (`int(revision)` may raise, aborting
the whole call: `none`), the diff is fetched at the repository root URL
joined with the path (`repo_info.root_url` raises `AttributeError` when
the repository info is `None`, aborting the whole call), and a
`SVNFileChange` is appended. -/
def process_log_paths (diffFor : String → Option String → Option String → DiffResult)
    (repoInfo : Option SVNRepoInfo) (revision : String) :
    List LogPath → Option (List SVNFileChange)
  | [] => some []
  | p :: rest =>
      if pyTruthy p.text then
        match SVNFileAction.ofValue p.action with
        | none => process_log_paths diffFor repoInfo revision rest
        | some action =>
            match commit_file_revisions revision action with
            | none => none
            | some revs =>
                match repoInfo with
                | none => none
                | some ri =>
                    let r := diffFor (ri.root_url ++ p.text.getD "") revs.1 revs.2
                    (process_log_paths diffFor repoInfo revision rest).map
                      (fun l =>
                        { path := p.text.getD "", action := action,
                          diff_content := r.diff_content,
                          old_revision := revs.1, new_revision := revs.2,
                          lines_added := r.lines_added,
                          lines_deleted := r.lines_deleted,
                          is_binary := r.is_binary } :: l)
      else process_log_paths diffFor repoInfo revision rest

/-! ## `get_commit_info` -/

/-- `SVNCommitInfo.parse_svn_date` never raises (it falls back to "now");
`datetime` values are modelled by their ISO source string, so the parse is
modelled as the identity on that string. -/
def parse_svn_date (date_str : String) : String := date_str

/-- The single `logentry` element of the parsed log XML.  `date = none`
models a missing `date` element or `None` text: both raise inside the
`try`, so they collapse to the same overall outcome. -/
structure LogEntry where
  date : Option String
  author : Option String
  msg : Option String
  paths : Option (List LogPath)
deriving DecidableEq, Repr

/-- Outcome of the `svn log -v -r <rev> --xml` call plus XML parse, the
external input of `get_commit_info`. -/
inductive LogOutcome where
  | cmdFail
  | parseError
  | parsed (entry : Option LogEntry)
deriving DecidableEq, Repr

/-- `SVNCommitInfo` pydantic model (`date` modelled by its ISO string). -/
structure SVNCommitInfo where
  revision : String
  author : String
  date : String
  message : String
  changed_files : List SVNFileChange
  repo_uuid : String
deriving DecidableEq, Repr

/-- `SubversionWebhook.get_commit_info` (lines 726-815), with the repo
info lookup and the log subcommand passed as oracles.  Note line 739:
when the repository info is unavailable the call does NOT return early;
it continues with `repo_uuid = ''`.  Line 742 evaluates
`revision or repo_info.revision`, which raises when `revision` is falsy
and the info lookup failed. -/
def get_commit_info (repoInfo : Option SVNRepoInfo) (logOutcome : LogOutcome)
    (diffFor : String → Option String → Option String → DiffResult)
    (revision : String) : Option SVNCommitInfo :=
  let repo_uuid := match repoInfo with | some r => r.uuid | none => ""
  match (if revision ≠ "" then some revision else repoInfo.map (fun r => r.revision)) with
  | none => none
  | some _ =>
      match logOutcome with
      | .cmdFail => none
      | .parseError => none
      | .parsed none => none
      | .parsed (some entry) =>
          match entry.date with
          | none => none
          | some dstr =>
              let author := entry.author.getD "unknown"
              let message := entry.msg.getD ""
              let files? := match entry.paths with
                | none => some []
                | some ps => process_log_paths diffFor repoInfo revision ps
              files?.map (fun fs =>
                { revision := revision, author := author,
                  date := parse_svn_date dstr, message := message,
                  changed_files := fs, repo_uuid := repo_uuid })

/-! ## Webhook payload construction (`_build_svn_webhook_payload`) -/

/-- JSON-like values, modelling the Python dict/list payload (dicts are
field lists in insertion order, as Python dicts preserve it). -/
inductive JVal where
  | s (v : String)
  | i (v : Int)
  | b (v : Bool)
  | null
  | arr (vs : List JVal)
  | obj (fields : List (String × JVal))

/-- An `Optional[str]` payload value. -/
def JVal.optStr : Option String → JVal
  | none => JVal.null
  | some v => JVal.s v

/-- `SubversionWebhook._build_svn_webhook_payload` (lines 894-1015).
Oracles: `lookupRepoInfo` is the result of the `self.get_repo_info()`
call made when no `repo_info` argument is supplied; `extract_repo_name`
models `_extract_repo_name` (a `urlparse`-based library transform);
`extract_author` is the result of `_extract_svn_author`; `now_iso` is
`datetime.now(timezone.utc).isoformat()`.  When the info lookup fails the
function returns the empty dict. -/
def build_svn_webhook_payload (lookupRepoInfo : Option SVNRepoInfo)
    (extract_repo_name : String → String) (extract_author now_iso : String)
    (event_type : String) (changes_data : Option (List SVNFileChange))
    (commit_info : Option SVNCommitInfo) (commit_message : Option String)
    (repo_info : Option SVNRepoInfo) : JVal :=
  match (match repo_info with | some r => some r | none => lookupRepoInfo) with
  | none => JVal.obj []
  | some ri =>
      let repo_name := extract_repo_name ri.url
      let changes := (changes_data.getD []).map (fun fc => JVal.obj
        [("diff", JVal.s (fc.diff_content.getD "")),
         ("new_path", JVal.s fc.path),
         ("old_path", JVal.s fc.path),
         ("additions", JVal.i fc.lines_added),
         ("deletions", JVal.i fc.lines_deleted),
         ("action", JVal.s fc.action.value),
         ("is_binary", JVal.b fc.is_binary),
         ("old_revision", JVal.optStr fc.old_revision),
         ("new_revision", JVal.optStr fc.new_revision)])
      let commits := match commit_info with
        | none => []
        | some ci => [JVal.obj
            [("id", JVal.s ci.revision),
             ("message", JVal.s ci.message),
             ("author", JVal.s ci.author),
             ("timestamp", JVal.s ci.date),
             ("created_at", JVal.s ci.date),
             ("url", JVal.s (ri.url ++ "?r=" ++ ci.revision))]]
      let object_attributes :=
        [("revision", JVal.s (match commit_info with
            | some ci => ci.revision | none => ri.revision)),
         ("message", JVal.s (commit_message.getD "")),
         ("author", JVal.s (match commit_info with
            | some ci => ci.author | none => extract_author)),
         ("created_at", JVal.s (match commit_info with
            | some ci => ci.date | none => now_iso)),
         ("updated_at", match commit_info with
            | some ci => JVal.s ci.date | none => JVal.null),
         ("url", JVal.s (match commit_info with
            | some ci => ri.url ++ "?r=" ++ ci.revision | none => ri.url)),
         ("action", JVal.s event_type),
         ("target_branch", JVal.s "trunk"),
         ("source_branch", JVal.s "trunk"),
         ("state", JVal.s (if event_type = "Pre-Commit" then "opened" else "merged"))]
      let event_fields :=
        if event_type = "Pre-Commit" then
          [("title", JVal.s "Pre-Commit validation"),
           ("description", JVal.s "SVN pre-commit hook validation")]
        else
          [("title", JVal.s (match commit_info with
              | some ci =>
                  if ci.message ≠ "" then (pySplitOn '\n' ci.message).headD ""
                  else "SVN commit"
              | none => "SVN commit")),
           ("description", JVal.s (match commit_info with
              | some ci => ci.message | none => "SVN post-commit notification"))]
      JVal.obj
        [("event_type", JVal.s event_type),
         ("object_kind", JVal.s "svn_commit"),
         ("repository", JVal.obj
           [("uuid", JVal.s ri.uuid),
            ("url", JVal.s ri.url),
            ("name", JVal.s repo_name),
            ("description", JVal.s ("SVN Repository: " ++ repo_name)),
            ("homepage", JVal.s ri.url)]),
         ("object_attributes", JVal.obj (object_attributes ++ event_fields)),
         ("changes", JVal.arr changes),
         ("commits", JVal.arr commits),
         ("svn_info", JVal.obj
           [("repository_uuid", JVal.s ri.uuid),
            ("repository_url", JVal.s ri.url),
            ("repository_root", JVal.s ri.root_url),
            ("revision", match commit_info with
               | some ci => JVal.s ci.revision | none => JVal.null),
            ("event_type", JVal.s event_type)])]

/-! ## `filter_changes` (`webhook_handler.py`) -/

/-- One input dict of `filter_changes`; every key may be absent. -/
structure ChangeIn where
  diff : Option String := none
  new_path : Option String := none
  old_path : Option String := none
  additions : Option Int := none
  deletions : Option Int := none
  action : Option String := none
  is_binary : Option Bool := none
  old_revision : Option String := none
  new_revision : Option String := none
deriving DecidableEq, Repr

/-- The exact field set of an output dict of `filter_changes`. -/
structure FilteredChange where
  diff : String
  new_path : String
  old_path : String
  additions : Int
  deletions : Int
  action : String
  is_binary : Bool
  old_revision : Option String
  new_revision : Option String
deriving DecidableEq, Repr

/-- `os.getenv('SUPPORTED_EXTENSIONS', '.java,.py,.php').split(',')`. -/
def supported_extensions (env : Option String) : List String :=
  pySplitOn ',' (env.getD ".java,.py,.php")

/-- The extension guard of the second comprehension:
`any(item.get('new_path', '').endswith(ext) for ext in supported_extensions)`. -/
def keep_extension (exts : List String) (item : ChangeIn) : Bool :=
  exts.any (fun ext => pyEndsWith (item.new_path.getD "") ext)

/-- The output dict built for one surviving item; `item['new_path']`
raises `KeyError` (overall `none`) when the key is absent. -/
def fill_change (item : ChangeIn) : Option FilteredChange :=
  (item.new_path).map (fun np =>
    { diff := item.diff.getD "", new_path := np, old_path := item.old_path.getD np,
      additions := item.additions.getD 0, deletions := item.deletions.getD 0,
      action := item.action.getD "M", is_binary := item.is_binary.getD false,
      old_revision := item.old_revision, new_revision := item.new_revision })

/-- Sequence a fallible map over a list (the element-building part of a
Python list comprehension, where an exception aborts the whole call). -/
def mapOption {α β : Type} (f : α → Option β) : List α → Option (List β)
  | [] => some []
  | x :: xs =>
      match f x with
      | none => none
      | some y => (mapOption f xs).map (fun l => y :: l)

/-- `filter_changes` (`webhook_handler.py` lines 10-51): drop deleted
files, then keep only items whose `new_path` ends with a supported
extension, rebuilding each as a fixed-field dict with defaults. -/
def filter_changes (env : Option String) (changes : List ChangeIn) :
    Option (List FilteredChange) :=
  let exts := supported_extensions env
  let filter_deleted_files_changes :=
    changes.filter (fun change => !(change.action == some "D"))
  mapOption fill_change
    (filter_deleted_files_changes.filter (keep_extension exts))

/-! ## `slugify_url` (`webhook_handler.py`) -/

/-- `re.sub(r'^<pre>', '', s)` for a literal anchored pattern: drop the
prefix when present. -/
def dropScheme (pre : String) (s : String) : String :=
  if pyStartsWith s pre then (s.toList.drop pre.toList.length).asString else s

/-- The three anchored scheme substitutions of `slugify_url`
(`^https?://`, then `^file://`, then `^svn://`). -/
def stripUrlScheme (s : String) : String :=
  let s1 := if pyStartsWith s "https://" then dropScheme "https://" s
            else dropScheme "http://" s
  let s2 := dropScheme "file://" s1
  dropScheme "svn://" s2

/-- The character class `[a-zA-Z0-9]`. -/
def isAsciiAlnum (c : Char) : Bool :=
  ('a' ≤ c && c ≤ 'z') || ('A' ≤ c && c ≤ 'Z') || ('0' ≤ c && c ≤ '9')

/-- `slugify_url` (`webhook_handler.py` lines 54-75): strip a leading URL
scheme, replace every character outside `[a-zA-Z0-9]` with `_`, then strip
leading and trailing underscores. -/
def slugify_url (original_url : String) : String :=
  let u := stripUrlScheme original_url
  let target := (u.toList.map (fun c => if isAsciiAlnum c then c else '_')).asString
  (stripL (fun c => c = '_') target.toList).asString

/-! ## `SVNCommitHandler.get_commit_changes` (`webhook_handler.py`) -/

/-- The webhook payload fields read by `SVNCommitHandler.parse_event_data`
that `get_commit_changes` depends on: `event_type` and `changes` (the
element type of the changes array is opaque here). -/
structure SVNWebhookData (α : Type) where
  event_type : Option String
  changes : Option (List α)

/-- `SVNCommitHandler.get_commit_changes` (lines 115-132):
`self.event_type` is `webhook_data.get('event_type')` and
`self.changes_data` is `webhook_data.get('changes', [])`. -/
def get_commit_changes {α : Type} (wd : SVNWebhookData α) : List α :=
  let changes_data := wd.changes.getD []
  if ¬ (wd.event_type = some "Post-Commit" ∨ wd.event_type = some "Pre-Commit") then []
  else if changes_data.isEmpty then []
  else changes_data

end SvnWebhook

namespace SvnWebhook

/-! ## Claim theorems C1-C3 -/

/-- C1 (code evaluation): the spec says a diff containing the recognized
binary marker line `Cannot display: file marked as a binary type.` makes
`is_binary_diff` return `true` (and empty input `false`).  The code drops
the comma between the two indicator literals, so the only recognized
indicator is their concatenation and the marker line alone is NOT
detected: `is_binary_diff` returns `false` on it, contradicting the spec
scenario, while the empty-input clause does hold. -/
theorem C1_binary_marker_not_detected :
    is_binary_diff "Cannot display: file marked as a binary type." = false ∧
    is_binary_diff ("Index: img.png\n" ++
      "=======\n" ++
      "Cannot display: file marked as a binary type.\n" ++
      "svn:mime-type = application/octet-stream\n") = false ∧
    is_binary_diff "" = false := by
  refine ⟨by decide, by decide, by decide⟩

/-- C2: in `get_commit_info`, for a target revision that parses as an
integer `v`, an Added file gets no `old_revision` and keeps
`new_revision = revision`; a Deleted file gets `old_revision`
equal to the numeral of `v - 1` and no `new_revision`; Modified and
Replaced files get both. -/
theorem C2_commit_file_revisions (revision : String) (v : Int)
    (h : pyInt revision = some v) :
    commit_file_revisions revision SVNFileAction.added = some (none, some revision) ∧
    commit_file_revisions revision SVNFileAction.deleted =
      some (some (pyStrOfInt (v - 1)), none) ∧
    commit_file_revisions revision SVNFileAction.modified =
      some (some (pyStrOfInt (v - 1)), some revision) ∧
    commit_file_revisions revision SVNFileAction.replaced =
      some (some (pyStrOfInt (v - 1)), some revision) := by
  simp [commit_file_revisions, h]

/-- C2 witness at revision "5". -/
theorem C2_commit_file_revisions_witness :
    commit_file_revisions "5" SVNFileAction.added = some (none, some "5") ∧
    commit_file_revisions "5" SVNFileAction.deleted = some (some "4", none) ∧
    commit_file_revisions "5" SVNFileAction.modified = some (some "4", some "5") ∧
    commit_file_revisions "5" SVNFileAction.replaced = some (some "4", some "5") := by
  have h := C2_commit_file_revisions "5" 5 (by decide)
  simpa using h

/-- C3: the `diff` command issued by `get_file_diff`: with both (nonempty)
revisions present a range diff, with only the old revision a
single-revision diff, with neither the plain base-vs-working-copy diff. -/
theorem C3_build_diff_cmd (file_path o n : String)
    (ho : o ≠ "") (hn : n ≠ "") :
    build_diff_cmd file_path (some o) (some n) =
      ["diff", "-r", o ++ ":" ++ n, file_path] ∧
    build_diff_cmd file_path (some o) none = ["diff", "-r", o, file_path] ∧
    build_diff_cmd file_path none none = ["diff", file_path] := by
  refine ⟨?_, ?_, ?_⟩ <;>
    simp [build_diff_cmd, pyTruthy, ho, hn]

/-- C3 witness at concrete revisions. -/
theorem C3_build_diff_cmd_witness :
    build_diff_cmd "trunk/a.py" (some "4") (some "5") =
      ["diff", "-r", "4:5", "trunk/a.py"] ∧
    build_diff_cmd "trunk/a.py" (some "4") none = ["diff", "-r", "4", "trunk/a.py"] ∧
    build_diff_cmd "trunk/a.py" none none = ["diff", "trunk/a.py"] := by
  have h := C3_build_diff_cmd "trunk/a.py" "4" "5" (by decide) (by decide)
  simpa using h

/-! ## C4: action enumeration and skipping of unknown action codes -/

lemma process_status_lines_unknown_cons (dfp : String → DiffResult)
    (rev bad : String) (post : List String) (a b : String) (ts : List String)
    (hb : ¬ pyStrip bad = "") (hsplit : pySplitWS bad = a :: b :: ts)
    (ha : SVNFileAction.ofValue a = none) :
    process_status_lines dfp rev (bad :: post) = process_status_lines dfp rev post := by
  simp [process_status_lines, hb, hsplit, ha]

lemma process_status_lines_drop_bad (dfp : String → DiffResult)
    (rev bad : String) (a b : String) (ts : List String)
    (hb : ¬ pyStrip bad = "") (hsplit : pySplitWS bad = a :: b :: ts)
    (ha : SVNFileAction.ofValue a = none) (pre post : List String) :
    process_status_lines dfp rev (pre ++ bad :: post) =
      process_status_lines dfp rev (pre ++ post) := by
  induction pre with
  | nil =>
      simpa using process_status_lines_unknown_cons dfp rev bad post a b ts hb hsplit ha
  | cons l pre ih =>
      simp only [List.cons_append, process_status_lines, List.append_eq]
      rw [ih]

lemma process_log_paths_unknown_cons
    (dfr : String → Option String → Option String → DiffResult)
    (ri : Option SVNRepoInfo) (rev : String) (bad : LogPath) (post : List LogPath)
    (hbt : pyTruthy bad.text = true) (hba : SVNFileAction.ofValue bad.action = none) :
    process_log_paths dfr ri rev (bad :: post) = process_log_paths dfr ri rev post := by
  simp [process_log_paths, hbt, hba]

lemma process_log_paths_drop_bad
    (dfr : String → Option String → Option String → DiffResult)
    (ri : Option SVNRepoInfo) (rev : String) (bad : LogPath)
    (hbt : pyTruthy bad.text = true) (hba : SVNFileAction.ofValue bad.action = none)
    (pre post : List LogPath) :
    process_log_paths dfr ri rev (pre ++ bad :: post) =
      process_log_paths dfr ri rev (pre ++ post) := by
  induction pre with
  | nil => simpa using process_log_paths_unknown_cons dfr ri rev bad post hbt hba
  | cons p pre ih =>
      simp only [List.cons_append, process_log_paths, List.append_eq]
      rw [ih]

lemma action_enumerated (c : SVNFileChange) :
    c.action = SVNFileAction.added ∨ c.action = SVNFileAction.deleted ∨
      c.action = SVNFileAction.modified ∨ c.action = SVNFileAction.replaced := by
  cases h : c.action <;> simp

lemma process_single_file_change_unknown (svnS : String → Result)
    (dfp : String → DiffResult) (rev fp : String)
    (l0 : String) (rest0 : List String)
    (hsucc : (svnS fp).success = true)
    (hsplit0 : pySplitOn '\n' (pyStrip (svnS fp).stdout) = l0 :: rest0)
    (hl0 : ¬ pyStrip l0 = "")
    (a0 b0 : String) (ts0 : List String)
    (hsplitw0 : pySplitWS l0 = a0 :: b0 :: ts0)
    (ha0 : SVNFileAction.ofValue a0 = none) :
    process_single_file_change svnS dfp rev fp = none := by
  simp [process_single_file_change, hsucc, hsplit0, hl0, hsplitw0, ha0]

lemma process_commit_files_drop_none (svnS : String → Result)
    (dfp : String → DiffResult) (rev fp : String)
    (hnone : process_single_file_change svnS dfp rev fp = none)
    (pre post : List String) :
    process_commit_files svnS dfp rev (pre ++ fp :: post) =
      process_commit_files svnS dfp rev (pre ++ post) := by
  induction pre with
  | nil => simp [process_commit_files, hnone]
  | cons x pre ih =>
      simp only [List.cons_append, process_commit_files, List.append_eq]
      rw [ih]

/-- C4: every `SVNFileChange` produced by the discovery-mode status loop,
by the explicit-file-list loop, or by the commit-info path loop carries
one of the four enumerated actions, and an input (status line, supplied
file whose summarize output carries an unknown code, or log path) with an
unrecognized action code produces no record and is dropped without
affecting the rest (no loop ever aborts because of it). -/
theorem C4_unknown_actions_skipped
    (dfp : String → DiffResult)
    (dfr : String → Option String → Option String → DiffResult)
    (ri : Option SVNRepoInfo) (repo_rev rev : String)
    (bad : String) (a b : String) (ts : List String)
    (hb : ¬ pyStrip bad = "") (hsplit : pySplitWS bad = a :: b :: ts)
    (ha : SVNFileAction.ofValue a = none)
    (badPath : LogPath) (hbt : pyTruthy badPath.text = true)
    (hba : SVNFileAction.ofValue badPath.action = none)
    (svnS : String → Result) (badFile : String)
    (l0 : String) (rest0 : List String)
    (hsucc : (svnS badFile).success = true)
    (hsplit0 : pySplitOn '\n' (pyStrip (svnS badFile).stdout) = l0 :: rest0)
    (hl0 : ¬ pyStrip l0 = "")
    (a0 b0 : String) (ts0 : List String)
    (hsplitw0 : pySplitWS l0 = a0 :: b0 :: ts0)
    (ha0 : SVNFileAction.ofValue a0 = none) :
    (∀ lines, ∀ c ∈ process_status_lines dfp repo_rev lines,
      c.action = SVNFileAction.added ∨ c.action = SVNFileAction.deleted ∨
        c.action = SVNFileAction.modified ∨ c.action = SVNFileAction.replaced) ∧
    (∀ pre post, process_status_lines dfp repo_rev (pre ++ bad :: post) =
      process_status_lines dfp repo_rev (pre ++ post)) ∧
    (∀ paths l, process_log_paths dfr ri rev paths = some l →
      ∀ c ∈ l,
        c.action = SVNFileAction.added ∨ c.action = SVNFileAction.deleted ∨
          c.action = SVNFileAction.modified ∨ c.action = SVNFileAction.replaced) ∧
    (∀ pre post, process_log_paths dfr ri rev (pre ++ badPath :: post) =
      process_log_paths dfr ri rev (pre ++ post)) ∧
    process_single_file_change svnS dfp repo_rev badFile = none ∧
    (∀ pre post, process_commit_files svnS dfp repo_rev (pre ++ badFile :: post) =
      process_commit_files svnS dfp repo_rev (pre ++ post)) ∧
    (∀ fps, ∀ c ∈ process_commit_files svnS dfp repo_rev fps,
      c.action = SVNFileAction.added ∨ c.action = SVNFileAction.deleted ∨
        c.action = SVNFileAction.modified ∨ c.action = SVNFileAction.replaced) := by
  refine ⟨fun lines c _ => action_enumerated c,
    fun pre post => process_status_lines_drop_bad dfp repo_rev bad a b ts hb hsplit ha pre post,
    fun paths l _ c _ => action_enumerated c,
    fun pre post => process_log_paths_drop_bad dfr ri rev badPath hbt hba pre post,
    process_single_file_change_unknown svnS dfp repo_rev badFile l0 rest0 hsucc
      hsplit0 hl0 a0 b0 ts0 hsplitw0 ha0,
    fun pre post => process_commit_files_drop_none svnS dfp repo_rev badFile
      (process_single_file_change_unknown svnS dfp repo_rev badFile l0 rest0 hsucc
        hsplit0 hl0 a0 b0 ts0 hsplitw0 ha0) pre post,
    fun fps c _ => action_enumerated c⟩

/-- C4 witness: a concrete unknown status code `?` is skipped in all
three loops. -/
theorem C4_unknown_actions_skipped_witness :
    process_status_lines (fun _ => DiffResult.mk none 0 0 false) "7"
        ("? x y" :: ["M a.py"]) =
      process_status_lines (fun _ => DiffResult.mk none 0 0 false) "7" ["M a.py"] ∧
    process_log_paths (fun _ _ _ => DiffResult.mk none 0 0 false) none "5"
        [LogPath.mk "?" (some "/x.py")] =
      process_log_paths (fun _ _ _ => DiffResult.mk none 0 0 false) none "5" [] ∧
    process_single_file_change (fun _ => Result.mk 0 "? x y\n" "")
        (fun _ => DiffResult.mk none 0 0 false) "7" "bad.xyz" = none ∧
    process_commit_files (fun _ => Result.mk 0 "? x y\n" "")
        (fun _ => DiffResult.mk none 0 0 false) "7" ["bad.xyz"] =
      process_commit_files (fun _ => Result.mk 0 "? x y\n" "")
        (fun _ => DiffResult.mk none 0 0 false) "7" [] := by
  have h := C4_unknown_actions_skipped (fun _ => DiffResult.mk none 0 0 false)
    (fun _ _ _ => DiffResult.mk none 0 0 false) none "7" "5"
    "? x y" "?" "x" ["y"] (by decide) (by decide) rfl
    (LogPath.mk "?" (some "/x.py")) rfl rfl
    (fun _ => Result.mk 0 "? x y\n" "") "bad.xyz"
    "? x y" [] (by decide) (by decide) (by decide) "?" "x" ["y"] (by decide) rfl
  exact ⟨by simpa using h.2.1 [] ["M a.py"], by simpa using h.2.2.2.1 [] [],
    h.2.2.2.2.1, by simpa using h.2.2.2.2.2.1 [] []⟩

/-! ## C5: `get_commit_info` when the repository info lookup fails -/

lemma process_log_paths_none_repo
    (dfr : String → Option String → Option String → DiffResult) (rev : String) :
    ∀ ps l, process_log_paths dfr none rev ps = some l → l = [] := by
  intro ps
  induction ps with
  | nil => intro l h; simpa [process_log_paths] using h.symm
  | cons p rest ih =>
      intro l h
      by_cases ht : pyTruthy p.text
      · rcases hov : SVNFileAction.ofValue p.action with _ | act
        · exact ih l (by simpa [process_log_paths, ht, hov] using h)
        · rcases hcr : commit_file_revisions rev act with _ | revs <;>
            simp [process_log_paths, ht, hov, hcr] at h
      · exact ih l (by simpa [process_log_paths, ht] using h)

/-- C5 counterexample: the claim says `get_commit_info` returns an
explicit failure whenever the repository info lookup is unavailable.  It
does not: with a failed lookup, a non-empty revision argument, and a log
entry listing no changed paths, it returns a `SVNCommitInfo` whose
`repo_uuid` is the empty string (line 739 substitutes `''` instead of
failing). -/
theorem C5_counterexample_returns_commit_info :
    get_commit_info none
      (LogOutcome.parsed (some
        (LogEntry.mk (some "2025-08-18T03:23:30Z") (some "alice") (some "fix") none)))
      (fun _ _ _ => DiffResult.mk none 0 0 false) "5" =
    some (SVNCommitInfo.mk "5" "alice" "2025-08-18T03:23:30Z" "fix" [] "") := by
  decide

/-- C5 (amended): when the repository info lookup fails, `get_commit_info`
fails if the revision argument is empty (the `revision or
repo_info.revision` expression raises), and any `SVNCommitInfo` it still
returns carries an empty `repo_uuid` and an empty changed-file list (any
diffable path would have raised at `repo_info.root_url`). -/
theorem C5_no_repo_info (logOutcome : LogOutcome)
    (dfr : String → Option String → Option String → DiffResult) (revision : String) :
    (revision = "" → get_commit_info none logOutcome dfr revision = none) ∧
    (∀ ci, get_commit_info none logOutcome dfr revision = some ci →
      ci.repo_uuid = "" ∧ ci.changed_files = []) := by
  constructor
  · intro hrev
    subst hrev
    simp [get_commit_info]
  · intro ci h
    by_cases hrev : revision = ""
    · subst hrev
      simp [get_commit_info] at h
    · rcases logOutcome with _ | _ | entry?
      · simp [get_commit_info, hrev] at h
      · simp [get_commit_info, hrev] at h
      · rcases entry? with _ | entry
        · simp [get_commit_info, hrev] at h
        · rcases hdate : entry.date with _ | dstr
          · simp [get_commit_info, hrev, hdate] at h
          · rcases hpaths : entry.paths with _ | ps
            · simp [get_commit_info, hrev, hdate, hpaths] at h
              simp [← h]
            · rcases hpl : process_log_paths dfr none revision ps with _ | l
              · simp [get_commit_info, hrev, hdate, hpaths, hpl] at h
              · have hl : l = [] := process_log_paths_none_repo dfr revision ps l hpl
                simp [get_commit_info, hrev, hdate, hpaths, hpl, hl] at h
                simp [← h]

/-! ## C6: empty payload on failed repository lookup -/

/-- C6: `_build_svn_webhook_payload` called with no `repo_info` argument
and a failing internal repository-info lookup returns the empty dict;
none of the payload fields are produced. -/
theorem C6_empty_payload_on_failed_lookup (ern : String → String) (ea ni et : String)
    (cd : Option (List SVNFileChange)) (ci : Option SVNCommitInfo)
    (cm : Option String) :
    build_svn_webhook_payload none ern ea ni et cd ci cm none = JVal.obj [] := rfl

/-! ## C8: `filter_changes` output shape -/

lemma mapOption_mem {α β : Type} (f : α → Option β) :
    ∀ (l : List α) (out : List β), mapOption f l = some out →
      ∀ e ∈ out, ∃ c ∈ l, f c = some e := by
  intro l
  induction l with
  | nil =>
      intro out h e he
      simp [mapOption] at h
      subst h
      simp at he
  | cons x xs ih =>
      intro out h e he
      rcases hfx : f x with _ | y
      · simp [mapOption, hfx] at h
      · rcases hxs : mapOption f xs with _ | l₁ <;> simp [mapOption, hfx, hxs] at h
        subst h
        rcases List.mem_cons.mp he with he | he
        · exact ⟨x, List.mem_cons_self x xs, by rw [hfx, he]⟩
        · obtain ⟨c, hc, hfc⟩ := ih l₁ hxs e he
          exact ⟨c, List.mem_cons_of_mem x hc, hfc⟩

/-- C8: every entry returned by `filter_changes` comes from an input item
that is not a deletion and whose `new_path` ends with a supported
extension; each output carries exactly the nine fixed fields with the
documented defaults; and the output equals a single in-order
filter-and-rebuild pass over the input (so input order is preserved). -/
theorem C8_filter_changes_shape (env : Option String) (changes : List ChangeIn)
    (out : List FilteredChange) (h : filter_changes env changes = some out) :
    (∀ e ∈ out, ∃ c ∈ changes,
        ¬ c.action = some "D" ∧ keep_extension (supported_extensions env) c = true ∧
          fill_change c = some e) ∧
    (∀ e ∈ out, ¬ e.action = "D" ∧
        ∃ ext ∈ supported_extensions env, pyEndsWith e.new_path ext = true) ∧
    mapOption fill_change
        (changes.filter (fun c =>
          !(c.action == some "D") && keep_extension (supported_extensions env) c)) =
      some out := by
  have hcomb : changes.filter (fun c =>
      !(c.action == some "D") && keep_extension (supported_extensions env) c) =
      (changes.filter (fun c => !(c.action == some "D"))).filter
        (keep_extension (supported_extensions env)) := by
    rw [List.filter_filter]
    exact List.filter_congr (fun c _ => Bool.and_comm _ _)
  have hsingle : mapOption fill_change
      (changes.filter (fun c =>
        !(c.action == some "D") && keep_extension (supported_extensions env) c)) =
      some out := by
    rw [hcomb]
    exact h
  have hmem : ∀ e ∈ out, ∃ c ∈ changes,
      ¬ c.action = some "D" ∧ keep_extension (supported_extensions env) c = true ∧
        fill_change c = some e := by
    intro e he
    obtain ⟨c, hc, hfc⟩ := mapOption_mem fill_change _ out hsingle e he
    have hc' := List.mem_filter.mp hc
    have hck2 := hc'.2
    simp only [Bool.and_eq_true] at hck2
    obtain ⟨hcd, hck⟩ := hck2
    refine ⟨c, hc'.1, ?_, hck, hfc⟩
    intro hD
    simp [hD] at hcd
  refine ⟨hmem, ?_, hsingle⟩
  intro e he
  obtain ⟨c, _, hcd, hck, hfc⟩ := hmem e he
  obtain ⟨np, hnp, hrec⟩ := Option.map_eq_some'.mp hfc
  constructor
  · rcases hact : c.action with _ | a
    · rw [← hrec]
      simp [hact]
    · rw [← hrec]
      simp [hact]
      intro hEq
      exact hcd (by rw [hact, hEq])
  · obtain ⟨ext, hext, hend⟩ := List.any_eq_true.mp hck
    refine ⟨ext, hext, ?_⟩
    have hnpe : e.new_path = np := by rw [← hrec]
    rw [hnpe]
    simpa [hnp] using hend

/-- C8 witness: concrete evaluation with the default extension set; the
deleted file and the unsupported extension are dropped, the surviving
item keeps input order and gets its defaults filled. -/
theorem C8_filter_changes_shape_witness :
    mapOption fill_change
        (([({ new_path := some "a.py", action := some "M", diff := some "d" } : ChangeIn),
           ({ new_path := some "b.py", action := some "D" } : ChangeIn),
           ({ new_path := some "c.txt" } : ChangeIn)]).filter (fun c =>
          !(c.action == some "D") && keep_extension (supported_extensions none) c)) =
      some [({ diff := "d", new_path := "a.py", old_path := "a.py", additions := 0,
               deletions := 0, action := "M", is_binary := false, old_revision := none,
               new_revision := none } : FilteredChange)] :=
  (C8_filter_changes_shape none _ _ (by decide)).2.2

/-! ## C9: `slugify_url` output alphabet and boundaries -/

lemma stripL_eq_rdropWhile (p : Char → Bool) (l : List Char) :
    stripL p l = List.rdropWhile p (l.dropWhile p) := rfl

lemma stripL_subset (p : Char → Bool) (l : List Char) :
    ∀ c ∈ stripL p l, c ∈ l := by
  intro c hc
  rw [stripL_eq_rdropWhile] at hc
  exact (List.dropWhile_suffix p).sublist.subset
    ((List.rdropWhile_prefix p _).sublist.subset hc)

lemma head?_dropWhile_not (p : Char → Bool) :
    ∀ (l : List Char) (x : Char), (l.dropWhile p).head? = some x → p x = false := by
  intro l
  induction l with
  | nil => intro x h; simp [List.dropWhile] at h
  | cons c cs ih =>
      intro x h
      cases hpc : p c
      · rw [List.dropWhile_cons_of_neg (by simp [hpc])] at h
        simp at h
        rw [← h]
        exact hpc
      · rw [List.dropWhile_cons_of_pos hpc] at h
        exact ih x h

lemma stripL_head_not (p : Char → Bool) (l : List Char) (a : Char) (hp : p a = true) :
    (stripL p l).head? ≠ some a := by
  rw [stripL_eq_rdropWhile]
  intro hsome
  obtain ⟨t, ht⟩ := List.rdropWhile_prefix p (l.dropWhile p)
  have hXhead : (l.dropWhile p).head? = some a := by
    rw [← ht]
    rcases hX : List.rdropWhile p (l.dropWhile p) with _ | ⟨r, R⟩
    · rw [hX] at hsome
      simp at hsome
    · rw [hX] at hsome
      simp at hsome
      simp [hsome]
  have hfalse := head?_dropWhile_not p l a hXhead
  rw [hp] at hfalse
  exact Bool.noConfusion hfalse

lemma stripL_getLast_not (p : Char → Bool) (l : List Char) (a : Char) (hp : p a = true) :
    (stripL p l).getLast? ≠ some a := by
  rw [stripL_eq_rdropWhile]
  by_cases hne : List.rdropWhile p (l.dropWhile p) = []
  · rw [hne]
    simp
  · have hnot := List.rdropWhile_last_not p (l.dropWhile p) hne
    rw [List.getLast?_eq_getLast _ hne]
    intro hsome
    have heq : (List.rdropWhile p (l.dropWhile p)).getLast hne = a :=
      Option.some.inj hsome
    rw [heq] at hnot
    exact hnot hp

/-- C9: the output of `slugify_url` contains only ASCII letters, digits
and underscores, and neither starts nor ends with an underscore. -/
theorem C9_slugify_url_safe (s : String) :
    (∀ c ∈ (slugify_url s).toList, isAsciiAlnum c = true ∨ c = '_') ∧
    (slugify_url s).toList.head? ≠ some '_' ∧
    (slugify_url s).toList.getLast? ≠ some '_' := by
  refine ⟨?_, ?_, ?_⟩
  · intro c hc
    have hc' := stripL_subset _ _ c hc
    obtain ⟨orig, _, horig⟩ := List.mem_map.mp hc'
    by_cases halnum : isAsciiAlnum orig = true
    · left
      rw [← horig]
      simp [halnum]
    · right
      rw [← horig]
      simp [halnum]
  · exact stripL_head_not _ _ '_' (by decide)
  · exact stripL_getLast_not _ _ '_' (by decide)

/-- C9 witness at a concrete URL. -/
theorem C9_slugify_url_safe_witness :
    (isAsciiAlnum 's' = true ∨ 's' = '_') ∧
    (slugify_url "https://svn.example.com/repo a!").toList.head? ≠ some '_' ∧
    (slugify_url "https://svn.example.com/repo a!").toList.getLast? ≠ some '_' :=
  ⟨(C9_slugify_url_safe "https://svn.example.com/repo a!").1 's' (by decide),
   (C9_slugify_url_safe "https://svn.example.com/repo a!").2.1,
   (C9_slugify_url_safe "https://svn.example.com/repo a!").2.2⟩

/-! ## C10: `get_commit_changes` event gating -/

/-- C10: `get_commit_changes` returns `[]` when the event type is not
exactly `Post-Commit` or `Pre-Commit`, returns `[]` when the changes
array is empty, and otherwise returns the payload's changes array
unchanged. -/
theorem C10_get_commit_changes {α : Type} (wd : SVNWebhookData α) :
    ((¬ wd.event_type = some "Post-Commit" ∧ ¬ wd.event_type = some "Pre-Commit") →
      get_commit_changes wd = []) ∧
    (wd.changes.getD [] = [] → get_commit_changes wd = []) ∧
    ((wd.event_type = some "Post-Commit" ∨ wd.event_type = some "Pre-Commit") →
      get_commit_changes wd = wd.changes.getD []) := by
  refine ⟨?_, ?_, ?_⟩
  · intro hev
    simp [get_commit_changes, hev.1, hev.2]
  · intro hch
    simp [get_commit_changes, hch]
  · intro hev
    rcases hch : wd.changes.getD [] with _ | ⟨c, cs⟩
    · simp [get_commit_changes, hch]
    · have : (wd.event_type = some "Post-Commit" ∨ wd.event_type = some "Pre-Commit") :=
        hev
      simp [get_commit_changes, hch, this]

/-- C10 witness at concrete payloads. -/
theorem C10_get_commit_changes_witness :
    get_commit_changes (SVNWebhookData.mk (some "Post-Commit") (some [1, 2]) : SVNWebhookData Nat) =
      [1, 2] ∧
    get_commit_changes (SVNWebhookData.mk (some "Push Hook") (some [1]) : SVNWebhookData Nat) =
      [] :=
  ⟨(C10_get_commit_changes _).2.2 (Or.inl rfl),
   (C10_get_commit_changes _).1 (by constructor <;> decide)⟩

/-! ## C7: idempotence of `format_to_github_style` -/

lemma toList_append (s t : String) : (s ++ t).toList = s.toList ++ t.toList := by
  cases s
  cases t
  rfl

lemma isPrefixOf_append_left {a b : List Char} (t : List Char)
    (h : a.isPrefixOf b = true) : a.isPrefixOf (b ++ t) = true := by
  induction a generalizing b with
  | nil => simp [List.isPrefixOf]
  | cons x xs ih =>
      cases b with
      | nil => simp [List.isPrefixOf] at h
      | cons y ys =>
          simp only [List.isPrefixOf, Bool.and_eq_true] at h
          simp only [List.cons_append, List.isPrefixOf, Bool.and_eq_true]
          exact ⟨h.1, ih h.2⟩

lemma isPrefixOf_append_left_false {a b : List Char} (t : List Char)
    (hlen : a.length ≤ b.length) (h : a.isPrefixOf b = false) :
    a.isPrefixOf (b ++ t) = false := by
  induction a generalizing b with
  | nil => simp [List.isPrefixOf] at h
  | cons x xs ih =>
      cases b with
      | nil => simp at hlen
      | cons y ys =>
          simp only [List.isPrefixOf] at h
          simp only [List.cons_append, List.isPrefixOf]
          rcases hxy : (x == y) with _ | _
          · simp
          · simp only [hxy, Bool.true_and] at h ⊢
            exact ih (by simpa using hlen) h

lemma pyStartsWith_lit_append (pre lit p : String) (h : pyStartsWith lit pre = true) :
    pyStartsWith (lit ++ p) pre = true := by
  unfold pyStartsWith at h ⊢
  rw [toList_append]
  exact isPrefixOf_append_left _ h

lemma pyStartsWith_lit_append_false (pre lit p : String)
    (hlen : pre.toList.length ≤ lit.toList.length) (h : pyStartsWith lit pre = false) :
    pyStartsWith (lit ++ p) pre = false := by
  unfold pyStartsWith at h ⊢
  rw [toList_append]
  exact isPrefixOf_append_left_false _ hlen h

lemma hdrA_dashes (p : String) : pyStartsWith ("--- a/" ++ p) "---" = true :=
  pyStartsWith_lit_append _ _ _ (by decide)

lemma hdrA_not_idx (p : String) : pyStartsWith ("--- a/" ++ p) "Index:" = false :=
  pyStartsWith_lit_append_false _ _ _ (by decide) (by decide)

lemma hdrA_not_sep (p : String) : pyStartsWith ("--- a/" ++ p) "=====" = false :=
  pyStartsWith_lit_append_false _ _ _ (by decide) (by decide)

lemma hdrB_plus (p : String) : pyStartsWith ("+++ b/" ++ p) "+++" = true :=
  pyStartsWith_lit_append _ _ _ (by decide)

lemma hdrB_not_idx (p : String) : pyStartsWith ("+++ b/" ++ p) "Index:" = false :=
  pyStartsWith_lit_append_false _ _ _ (by decide) (by decide)

lemma hdrB_not_sep (p : String) : pyStartsWith ("+++ b/" ++ p) "=====" = false :=
  pyStartsWith_lit_append_false _ _ _ (by decide) (by decide)

lemma hdrB_not_dashes (p : String) : pyStartsWith ("+++ b/" ++ p) "---" = false :=
  pyStartsWith_lit_append_false _ _ _ (by decide) (by decide)

lemma format_go_eq_pathed (m1 m2 : String → Option String) (p : String) (hp : p ≠ "")
    (lines : List String) :
    ∀ ic, format_go m1 m2 (some p) ic lines = format_go_pathed p ic lines := by
  induction lines with
  | nil => intro ic; rfl
  | cons line rest ih =>
      intro ic
      have htr : pyTruthy (some p) = true := by simp [pyTruthy, hp]
      simp only [format_go, format_go_pathed, htr, if_true, Option.getD_some, ih]

lemma format_go_pathed_idem (p : String) (lines : List String) :
    ∀ ic, format_go_pathed p ic (format_go_pathed p ic lines) =
      format_go_pathed p ic lines := by
  induction lines with
  | nil => intro ic; rfl
  | cons line rest ih =>
      intro ic
      by_cases h1 : pyStartsWith line "Index:" = true
      · simp [format_go_pathed, h1, ih]
      · by_cases h2 : pyStartsWith line "=====" = true
        · simp [format_go_pathed, h1, h2, ih]
        · by_cases h3 : pyStartsWith line "---" = true
          · simp [format_go_pathed, h1, h2, h3, hdrA_not_idx, hdrA_not_sep,
              hdrA_dashes, ih]
          · by_cases h4 : pyStartsWith line "+++" = true
            · simp [format_go_pathed, h1, h2, h3, h4, hdrB_not_idx, hdrB_not_sep,
                hdrB_not_dashes, hdrB_plus, ih]
            · by_cases hic : ic = true
              · simp [format_go_pathed, h1, h2, h3, h4, hic, ih]
              · simp [format_go_pathed, h1, h2, h3, h4, hic, ih]

lemma format_go_pathed_false_head (p : String) (lines : List String) :
    format_go_pathed p false lines = [] ∨
      ∃ t, format_go_pathed p false lines = ("--- a/" ++ p) :: t ∨
        format_go_pathed p false lines = ("+++ b/" ++ p) :: t := by
  induction lines with
  | nil => left; rfl
  | cons line rest ih =>
      by_cases h1 : pyStartsWith line "Index:" = true
      · simpa [format_go_pathed, h1] using ih
      · by_cases h2 : pyStartsWith line "=====" = true
        · simpa [format_go_pathed, h1, h2] using ih
        · by_cases h3 : pyStartsWith line "---" = true
          · right
            exact ⟨format_go_pathed p true rest, Or.inl (by
              simp [format_go_pathed, h1, h2, h3])⟩
          · by_cases h4 : pyStartsWith line "+++" = true
            · right
              exact ⟨format_go_pathed p false rest, Or.inr (by
                simp [format_go_pathed, h1, h2, h3, h4])⟩
            · simpa [format_go_pathed, h1, h2, h3, h4] using ih

lemma format_go_pathed_no_newline (p : String) (hpn : ('\n') ∉ p.toList)
    (lines : List String) (hl : ∀ l ∈ lines, ('\n') ∉ l.toList) :
    ∀ ic, ∀ x ∈ format_go_pathed p ic lines, ('\n') ∉ x.toList := by
  induction lines with
  | nil => intro ic x hx; simp [format_go_pathed] at hx
  | cons line rest ih =>
      have hline := hl line (List.mem_cons_self _ _)
      have hrest : ∀ l ∈ rest, ('\n') ∉ l.toList :=
        fun l hm => hl l (List.mem_cons_of_mem _ hm)
      intro ic x hx
      have hhdrA : ('\n') ∉ ("--- a/" ++ p).toList := by
        rw [toList_append]
        intro hmem
        rcases List.mem_append.mp hmem with hmem | hmem
        · simp at hmem
        · exact hpn hmem
      have hhdrB : ('\n') ∉ ("+++ b/" ++ p).toList := by
        rw [toList_append]
        intro hmem
        rcases List.mem_append.mp hmem with hmem | hmem
        · simp at hmem
        · exact hpn hmem
      by_cases h1 : pyStartsWith line "Index:" = true
      · exact ih hrest ic x (by simpa [format_go_pathed, h1] using hx)
      · by_cases h2 : pyStartsWith line "=====" = true
        · exact ih hrest ic x (by simpa [format_go_pathed, h1, h2] using hx)
        · by_cases h3 : pyStartsWith line "---" = true
          · simp only [format_go_pathed, h1, h2, h3] at hx
            simp only [if_true, if_false, Bool.false_eq_true] at hx
            rcases List.mem_cons.mp (by simpa using hx) with hx | hx
            · rw [hx]; exact hhdrA
            · exact ih hrest true x hx
          · by_cases h4 : pyStartsWith line "+++" = true
            · simp only [format_go_pathed, h1, h2, h3, h4] at hx
              rcases List.mem_cons.mp (by simpa using hx) with hx | hx
              · rw [hx]; exact hhdrB
              · exact ih hrest ic x hx
            · by_cases hic : ic = true
              · simp only [format_go_pathed, h1, h2, h3, h4, hic] at hx
                rcases List.mem_cons.mp (by simpa using hx) with hx | hx
                · rw [hx]; exact hline
                · exact ih hrest true x hx
              · have hic' : ic = false := by
                  cases ic
                  · rfl
                  · exact absurd rfl hic
                exact ih hrest ic x (by simpa [format_go_pathed, h1, h2, h3, h4, hic'] using hx)

lemma splitOnCharL_ne_nil (sep : Char) (l : List Char) : splitOnCharL sep l ≠ [] := by
  cases l with
  | nil => simp [splitOnCharL]
  | cons c rest =>
      simp only [splitOnCharL]
      by_cases hc : c = sep
      · simp [hc]
      · simp only [hc, if_false]
        rcases splitOnCharL sep rest with _ | ⟨h, t⟩ <;> simp

lemma mem_splitOnCharL_not_mem (sep : Char) (l : List Char) :
    ∀ x ∈ splitOnCharL sep l, sep ∉ x := by
  induction l with
  | nil => intro x hx; simp [splitOnCharL] at hx; simp [hx]
  | cons c rest ih =>
      intro x hx
      by_cases hc : c = sep
      · simp only [splitOnCharL, hc, if_true] at hx
        rcases List.mem_cons.mp (by simpa using hx) with hx | hx
        · simp [hx]
        · exact ih x hx
      · simp only [splitOnCharL, hc, if_false] at hx
        rcases hsplit : splitOnCharL sep rest with _ | ⟨h, t⟩
        · exact absurd hsplit (splitOnCharL_ne_nil sep rest)
        · rw [hsplit] at hx
          rcases List.mem_cons.mp (by simpa using hx) with hx | hx
          · rw [hx]
            intro hmem
            rcases List.mem_cons.mp hmem with hmem | hmem
            · exact hc hmem.symm
            · exact ih h (by rw [hsplit]; exact List.mem_cons_self _ _) hmem
          · exact ih x (by rw [hsplit]; exact List.mem_cons_of_mem _ hx)

lemma splitOnCharL_single (sep : Char) (l : List Char) (h : sep ∉ l) :
    splitOnCharL sep l = [l] := by
  induction l with
  | nil => rfl
  | cons c cs ih =>
      have hc : ¬ c = sep := fun hEq => h (hEq ▸ List.mem_cons_self _ _)
      have hcs : sep ∉ cs := fun hm => h (List.mem_cons_of_mem _ hm)
      simp only [splitOnCharL, hc, if_false, ih hcs]

lemma splitOnCharL_append (sep : Char) (x s : List Char) (h : sep ∉ x) :
    splitOnCharL sep (x ++ sep :: s) = x :: splitOnCharL sep s := by
  induction x with
  | nil => simp [splitOnCharL]
  | cons c cs ih =>
      have hc : ¬ c = sep := fun hEq => h (hEq ▸ List.mem_cons_self _ _)
      have hcs : sep ∉ cs := fun hm => h (List.mem_cons_of_mem _ hm)
      simp only [List.cons_append, splitOnCharL, hc, if_false, List.append_eq, ih hcs]

lemma joinWith_roundtrip (sep : Char) (F : List (List Char)) (hF : F ≠ [])
    (hsep : ∀ f ∈ F, sep ∉ f) : splitOnCharL sep (joinWith sep F) = F := by
  induction F with
  | nil => exact absurd rfl hF
  | cons x F ih =>
      cases F with
      | nil =>
          simp only [joinWith]
          exact splitOnCharL_single sep x (hsep x (List.mem_cons_self _ _))
      | cons y t =>
          simp only [joinWith]
          rw [splitOnCharL_append sep x _ (hsep x (List.mem_cons_self _ _))]
          rw [ih (by simp) (fun f hf => hsep f (List.mem_cons_of_mem _ hf))]

lemma joinWith_cons_exists (sep : Char) (x : List Char) (F : List (List Char)) :
    ∃ r, joinWith sep (x :: F) = x ++ r := by
  cases F with
  | nil => exact ⟨[], by simp [joinWith]⟩
  | cons y t => exact ⟨sep :: joinWith sep (y :: t), rfl⟩

lemma stripL_ne_nil_of_mem (p : Char → Bool) (l : List Char) (c : Char)
    (hc : c ∈ l) (hpc : p c = false) : stripL p l ≠ [] := by
  rw [stripL_eq_rdropWhile]
  intro hnil
  have hall := List.rdropWhile_eq_nil_iff.mp hnil
  have hcmem : c ∈ l.dropWhile p := by
    have hsplit := List.takeWhile_append_dropWhile p l
    rcases List.mem_append.mp (hsplit ▸ hc) with hm | hm
    · have := List.mem_takeWhile_imp hm
      rw [hpc] at this
      exact Bool.noConfusion this
    · exact hm
  have := hall c hcmem
  rw [hpc] at this
  exact Bool.noConfusion this

/-- C7: `format_to_github_style` is idempotent when a (nonempty,
newline-free) explicit path is supplied: re-running the transform on its
own output with the same path changes nothing. -/
theorem C7_format_to_github_style_idempotent (m1 m2 : String → Option String)
    (d p : String) (hp : p ≠ "") (hpn : ('\n') ∉ p.toList) :
    format_to_github_style m1 m2 (format_to_github_style m1 m2 d (some p)) (some p) =
      format_to_github_style m1 m2 d (some p) := by
  by_cases hblank : d = "" ∨ pyStrip d = ""
  · have hin : format_to_github_style m1 m2 d (some p) = "" := by
      rw [format_to_github_style, if_pos hblank]
    rw [hin, format_to_github_style, if_pos (Or.inl rfl)]
  · have hfmt : format_to_github_style m1 m2 d (some p) =
        pyJoin '\n' (format_go_pathed p false (pySplitOn '\n' d)) := by
      rw [format_to_github_style, if_neg hblank,
        format_go_eq_pathed m1 m2 p hp (pySplitOn '\n' d) false]
    rcases hFnil : format_go_pathed p false (pySplitOn '\n' d) with _ | ⟨h, t⟩
    · have ho : format_to_github_style m1 m2 d (some p) = "" := by
        rw [hfmt, hFnil]
        rfl
      rw [ho, format_to_github_style, if_pos (Or.inl rfl)]
    · -- the formatted output starts with a rewritten header line
      have hhead := format_go_pathed_false_head p (pySplitOn '\n' d)
      rw [hFnil] at hhead
      have hhchar : ∃ cs, h.toList = '-' :: cs ∨ h.toList = '+' :: cs := by
        rcases hhead with hhead | ⟨t', hcase | hcase⟩
        · exact absurd hhead (by simp)
        · have hh : h = "--- a/" ++ p := (List.cons.injEq _ _ _ _ ▸ hcase).1
          refine ⟨"-- a/".toList ++ p.toList, Or.inl ?_⟩
          rw [hh, toList_append]
          rfl
        · have hh : h = "+++ b/" ++ p := (List.cons.injEq _ _ _ _ ▸ hcase).1
          refine ⟨"++ b/".toList ++ p.toList, Or.inr ?_⟩
          rw [hh, toList_append]
          rfl
      obtain ⟨r, hr⟩ := joinWith_cons_exists '\n' h.toList (t.map String.toList)
      have hotl : (pyJoin '\n' (h :: t)).toList = h.toList ++ r := by
        rw [pyJoin, List.toList_asString, List.map_cons, hr]
      -- the output is neither empty nor blank
      have hchar : ∃ c cs, (pyJoin '\n' (h :: t)).toList = c :: cs ∧
          Char.isWhitespace c = false := by
        obtain ⟨cs, hcs | hcs⟩ := hhchar
        · exact ⟨'-', cs ++ r, by rw [hotl, hcs]; simp, by decide⟩
        · exact ⟨'+', cs ++ r, by rw [hotl, hcs]; simp, by decide⟩
      obtain ⟨c, cs, hocl, hcw⟩ := hchar
      have hone : pyJoin '\n' (h :: t) ≠ "" := by
        intro hEq
        rw [hEq] at hocl
        simp at hocl
      have hostrip : pyStrip (pyJoin '\n' (h :: t)) ≠ "" := by
        rw [pyStrip]
        intro hEq
        have hnil := List.asString_eq.mp hEq
        simp only [String.toList_empty] at hnil
        exact stripL_ne_nil_of_mem Char.isWhitespace _ c
          (by rw [hocl]; exact List.mem_cons_self _ _) hcw hnil
      -- every line of the output is newline-free
      have hLnn : ∀ l ∈ pySplitOn '\n' d, ('\n') ∉ l.toList := by
        intro l hl
        have : l.toList ∈ splitOnCharL '\n' d.toList := by
          rcases List.mem_map.mp hl with ⟨x, hx, hxe⟩
          rw [← hxe, List.toList_asString]
          exact hx
        exact mem_splitOnCharL_not_mem '\n' d.toList l.toList this
      have hFnn : ∀ x ∈ format_go_pathed p false (pySplitOn '\n' d), ('\n') ∉ x.toList :=
        format_go_pathed_no_newline p hpn (pySplitOn '\n' d) hLnn false
      rw [hFnil] at hFnn
      -- splitting the output recovers the formatted line list
      have hsplit_o : pySplitOn '\n' (pyJoin '\n' (h :: t)) = h :: t := by
        rw [pySplitOn, pyJoin, List.toList_asString]
        rw [joinWith_roundtrip '\n' ((h :: t).map String.toList) (by simp)
          (by
            intro f hf
            rcases List.mem_map.mp hf with ⟨x, hx, hxe⟩
            rw [← hxe]
            exact hFnn x hx)]
        rw [List.map_map]
        have hid : ∀ s ∈ (h :: t), (List.asString ∘ String.toList) s = id s :=
          fun s _ => String.asString_toList s
        rw [List.map_congr_left hid, List.map_id]
      -- assemble
      rw [hfmt, hFnil]
      rw [format_to_github_style, if_neg (not_or.mpr ⟨hone, hostrip⟩),
        format_go_eq_pathed m1 m2 p hp _ false, hsplit_o]
      have hidem := format_go_pathed_idem p (pySplitOn '\n' d) false
      rw [hFnil] at hidem
      rw [hidem]

/-- C7 witness at a concrete raw SVN diff and path. -/
theorem C7_format_to_github_style_idempotent_witness :
    format_to_github_style (fun _ => none) (fun _ => none)
        (format_to_github_style (fun _ => none) (fun _ => none)
          ("Index: a.py\n=======\n--- a.py\t(revision 4)\n+++ a.py\t(revision 5)\n@@ -1 +1 @@\n-x\n+y")
          (some "a.py"))
        (some "a.py") =
      format_to_github_style (fun _ => none) (fun _ => none)
        ("Index: a.py\n=======\n--- a.py\t(revision 4)\n+++ a.py\t(revision 5)\n@@ -1 +1 @@\n-x\n+y")
        (some "a.py") :=
  C7_format_to_github_style_idempotent (fun _ => none) (fun _ => none) _ "a.py"
    (by decide) (by decide)

/-- C5 witness: the amended statement applied at concrete inputs. -/
theorem C5_no_repo_info_witness :
    get_commit_info none LogOutcome.cmdFail
      (fun _ _ _ => DiffResult.mk none 0 0 false) "" = none ∧
    (SVNCommitInfo.mk "5" "alice" "2025-08-18T03:23:30Z" "fix" [] "").repo_uuid = "" :=
  ⟨(C5_no_repo_info LogOutcome.cmdFail (fun _ _ _ => DiffResult.mk none 0 0 false) "").1 rfl,
   ((C5_no_repo_info
      (LogOutcome.parsed (some
        (LogEntry.mk (some "2025-08-18T03:23:30Z") (some "alice") (some "fix") none)))
      (fun _ _ _ => DiffResult.mk none 0 0 false) "5").2 _ (by decide)).1⟩

end SvnWebhook
